import Mathlib

/-!
Verification of the Hajo pool-lifecycle coordinator.

This file shallowly embeds the two core source files of the repository:

* `frontend/hooks/useHajoContracts.ts` — the receipt-log scanner
  `extractPoolAddress`, which recovers a newly created pool's address from
  a transaction receipt's event logs.
* `frontend/app/api/pools/route.ts` — the pool record manager: the `GET`
  (query) and `POST` (create) request handlers over three file-backed
  collections (pools, activities, members-by-pool).

Modelling conventions:

* JavaScript values that may be `undefined`/`null` are `Option`s; JS string
  truthiness (`!s` is true exactly for the empty string) is `jsFalsy`.
* `String.prototype.toLowerCase` is modelled character-wise with
  `Char.toLower` (the strings involved are ASCII hex addresses).
* Exceptions thrown and caught inside the scanner's per-log `try/catch` are
  modelled with `Except Unit`; the surrounding catch converts them to
  "continue with the next log".
* `Date.now()` readings and the `Math.random()` suffix are external inputs,
  passed in explicitly (`PostEnv`); timestamps are carried as their numeric
  millisecond values (the ISO rendering applied by the source is an
  injective formatting step that no claim inspects).
* `parseFloat` is modelled over exact rationals (`JsNumber`), with `nan`
  and signed infinities as explicit constructors.
-/

namespace Hajo

/-- Model of `s.toLowerCase()` on the ASCII strings used for addresses. -/
def jsToLower (s : String) : String := ⟨s.data.map Char.toLower⟩

/-- JS string-truthiness of a possibly-absent string: `!v` is `true` for
`undefined`/`null` and for the empty string. -/
def jsFalsy : Option String → Bool
  | none => true
  | some s => s.length == 0

/-- JS `v || d` for a possibly-absent string `v`. -/
def jsOrStr (v : Option String) (d : String) : String :=
  match v with
  | none => d
  | some s => if s.length = 0 then d else s

/-- JS `v || d` for a possibly-absent number (0 is falsy). -/
def jsOrInt (v : Option Int) (d : Int) : Int :=
  match v with
  | none => d
  | some n => if n = 0 then d else n

/-- JS `v || null` for a possibly-absent JS string (empty string becomes null). -/
def jsOrNullStr (v : Option String) : Option String :=
  match v with
  | none => none
  | some s => if s.length = 0 then none else some s

/-! ## Receipt Log Scanner (`extractPoolAddress`, useHajoContracts.ts:56-85) -/

/-- An event log entry of a transaction receipt. The source accesses
`log.address` and `log.topics` on untyped objects, so both fields may be
absent (`none`); an absent field makes the corresponding access throw,
which the per-log `catch` swallows. -/
structure Log where
  address : Option String
  topics : Option (List String)
deriving DecidableEq

/-- A transaction receipt: `receipt.logs` may itself be absent. -/
structure Receipt where
  logs : Option (List Log)
deriving DecidableEq

/-- Outcome of `publicClient.getTransactionReceipt`: the awaited call either
throws (`fetchError`) or resolves to a possibly-null receipt. -/
inductive FetchResult where
  | fetchError
  | ok (receipt : Option Receipt)
deriving DecidableEq

/-- The `^0x[a-fA-F0-9]$` character class. -/
def isHexChar (c : Char) : Bool :=
  c.isDigit || ('a' ≤ c && c ≤ 'f') || ('A' ≤ c && c ≤ 'F')

/-- The strict pattern `/^0x[a-fA-F0-9]{40}$/`. -/
def isAddrHex (s : String) : Bool :=
  s.length == 42 && s.data.take 2 == ['0', 'x'] && (s.data.drop 2).all isHexChar

/-- JS `s.slice(-n)`: the last `n` characters of `s` (all of `s` when shorter). -/
def sliceLast (n : Nat) (s : String) : String :=
  ⟨s.data.drop (s.data.length - n)⟩

/-- One iteration of the scanner's `for` loop over `receipt.logs`, before
the inner `catch`: `.error ()` is a thrown exception (missing `address`
makes `log.address.toLowerCase()` throw; missing `topics` makes
`log.topics.length` throw), `.ok none` is `continue`/fall-through, and
`.ok (some a)` is `return a`. -/
def processLogRaw (factory : String) (log : Log) : Except Unit (Option String) :=
  match log.address with
  | none => .error ()
  | some addr =>
    if jsToLower addr ≠ jsToLower factory then .ok none
    else
      match log.topics with
      | none => .error ()
      | some ts =>
        match ts with
        | _ :: t1 :: _ =>
          let poolAddr := "0x" ++ sliceLast 40 t1
          if isAddrHex poolAddr then .ok (some poolAddr) else .ok none
        | _ => .ok none

/-- One loop iteration with the inner `catch (e) { continue }` applied. -/
def processLog (factory : String) (log : Log) : Option String :=
  match processLogRaw factory log with
  | .error _ => none
  | .ok r => r

/-- The scanner's `for (const log of receipt.logs)` loop: first iteration
that returns an address wins; falling off the end yields `null`. -/
def extractFromLogs (factory : String) : List Log → Option String
  | [] => none
  | l :: ls =>
    match processLog factory l with
    | some a => some a
    | none => extractFromLogs factory ls

/-- Function `extractPoolAddress` (useHajoContracts.ts:56-85): fetch the receipt
(a failed fetch is caught and yields `null`), return `null` for a null
receipt, absent logs, or zero logs, otherwise scan the logs. -/
def extractPoolAddress (factory : String) (fetch : FetchResult) : Option String :=
  match fetch with
  | .fetchError => none
  | .ok none => none
  | .ok (some r) =>
    match r.logs with
    | none => none
    | some logs =>
      if logs.length = 0 then none
      else extractFromLogs factory logs

/-- Claim-side candidate for one log, written from the spec's words: a log
emitted by the factory address (case-insensitively) with at least two
topics contributes `"0x"` + (last 40 hex characters of its second topic),
provided that string matches the strict 20-byte pattern. -/
def logCandidate (factory : String) (log : Log) : Option String :=
  match log.address, log.topics with
  | some addr, some (_ :: t1 :: _) =>
    if jsToLower addr = jsToLower factory then
      let c := "0x" ++ sliceLast 40 t1
      if isAddrHex c then some c else none
    else none
  | _, _ => none

theorem processLog_eq_logCandidate (factory : String) (log : Log) :
    processLog factory log = logCandidate factory log := by
  rcases log with ⟨addr, topics⟩
  cases addr with
  | none => rfl
  | some a =>
    by_cases h : jsToLower a = jsToLower factory
    · cases topics with
      | none => simp [processLog, processLogRaw, logCandidate, h]
      | some ts =>
        match ts with
        | [] => simp [processLog, processLogRaw, logCandidate, h]
        | [t0] => simp [processLog, processLogRaw, logCandidate, h]
        | t0 :: t1 :: rest =>
          by_cases hv : isAddrHex ("0x" ++ sliceLast 40 t1) = true <;>
            simp [processLog, processLogRaw, logCandidate, h, hv]
    · cases topics with
      | none => simp [processLog, processLogRaw, logCandidate, h]
      | some ts =>
        match ts with
        | [] => simp [processLog, processLogRaw, logCandidate, h]
        | [t0] => simp [processLog, processLogRaw, logCandidate, h]
        | t0 :: t1 :: rest => simp [processLog, processLogRaw, logCandidate, h]

theorem extractFromLogs_eq_findSome (factory : String) (logs : List Log) :
    extractFromLogs factory logs = logs.findSome? (logCandidate factory) := by
  induction logs with
  | nil => rfl
  | cons l ls ih =>
    simp only [extractFromLogs, List.findSome?, processLog_eq_logCandidate]
    cases logCandidate factory l <;> simp [ih]

/-- Claim C1: For every receipt, the scanner processes logs in receipt order,
skips logs not emitted (case-insensitively) by the factory address, forms
`"0x"` + last-40-hex-chars of the second topic of each remaining log with
at least two topics, and returns the first such candidate matching the
strict 20-byte hex pattern; the first valid match wins, later logs are not
consulted. Formally: the scanner on a receipt whose `logs` field is `logs`
equals `List.findSome?` of the claim-side per-log candidate, which returns
the first `some` in list order. -/
theorem C1_scanner_first_match (factory : String) (logs : List Log) :
    extractPoolAddress factory (.ok (some ⟨some logs⟩)) =
      logs.findSome? (logCandidate factory) := by
  simp only [extractPoolAddress]
  split
  · rename_i h
    have : logs = [] := List.length_eq_zero.mp h
    subst this
    rfl
  · exact extractFromLogs_eq_findSome factory logs

/-- Example run: the scanner skips a non-factory log and extracts the low
20 bytes of the second topic of the first factory-emitted log. -/
theorem scanner_example :
    extractPoolAddress "0xFAC"
      (.ok (some ⟨some
        [⟨some "0xother", some ["a", "b"]⟩,
         ⟨some "0xfac", some ["0xsig",
           "0x000000000000000000000000aAbBcCdDeEfF00112233445566778899aAbBcCdD"]⟩]⟩)) =
      some "0xaAbBcCdDeEfF00112233445566778899aAbBcCdD" := by decide

/-- Claim C3: The scanner never throws to its caller: it is a total function
into `Option String` (the embedding's codomain itself records this); a
receipt-fetch failure is caught and yields `null`; and any log whose
processing throws (modelled by `processLogRaw` returning `.error`) is
swallowed, scanning continuing with the remaining logs unchanged. -/
theorem C3_scanner_never_throws (factory : String) :
    (extractPoolAddress factory .fetchError = none) ∧
    (∀ l ls, processLogRaw factory l = .error () →
      extractFromLogs factory (l :: ls) = extractFromLogs factory ls) := by
  refine ⟨rfl, ?_⟩
  intro l ls h
  simp only [extractFromLogs, processLog, h]

/-- Witness for C3: a malformed log (missing `address`, missing `topics`)
throws in `processLogRaw`, and scanning the one-log list it heads behaves
as scanning the empty tail. -/
theorem C3_scanner_never_throws_witness :
    extractPoolAddress "0xFAC" .fetchError = none ∧
    extractFromLogs "0xFAC" [⟨none, none⟩] = extractFromLogs "0xFAC" [] :=
  ⟨(C3_scanner_never_throws "0xFAC").1,
   (C3_scanner_never_throws "0xFAC").2 ⟨none, none⟩ [] rfl⟩

/-- Claim C4: The scanner returns `null` for a receipt with zero logs (also
for a null receipt or an absent `logs` field), and for any receipt none of
whose logs carries an emitting address equal (case-insensitively) to the
factory address. -/
theorem C4_scanner_null_cases (factory : String) (logs : List Log) :
    (extractPoolAddress factory (.ok (some ⟨some []⟩)) = none) ∧
    (extractPoolAddress factory (.ok none) = none) ∧
    (extractPoolAddress factory (.ok (some ⟨none⟩)) = none) ∧
    ((∀ l ∈ logs, ∀ a, l.address = some a → jsToLower a ≠ jsToLower factory) →
      extractPoolAddress factory (.ok (some ⟨some logs⟩)) = none) := by
  refine ⟨rfl, rfl, rfl, ?_⟩
  intro h
  rw [C1_scanner_first_match]
  induction logs with
  | nil => rfl
  | cons l ls ih =>
    have hl := h l (List.mem_cons_self l ls)
    have hcand : logCandidate factory l = none := by
      rcases l with ⟨addr, topics⟩
      cases addr with
      | none => cases topics with
        | none => rfl
        | some ts => match ts with
          | [] => rfl
          | [_] => rfl
          | _ :: _ :: _ => rfl
      | some a =>
        have : jsToLower a ≠ jsToLower factory := hl a rfl
        cases topics with
        | none => rfl
        | some ts => match ts with
          | [] => rfl
          | [_] => rfl
          | _ :: _ :: _ => simp [logCandidate, this]
    simp only [List.findSome?, hcand]
    exact ih (fun l' hl' => h l' (List.mem_cons_of_mem l hl'))

/-- Witness for C4: a receipt whose single log is emitted by a non-factory
address yields `null`. -/
theorem C4_scanner_null_cases_witness :
    extractPoolAddress "0xFAC" (.ok (some ⟨some [⟨some "0xother", some ["a", "b"]⟩]⟩)) = none :=
  (C4_scanner_null_cases "0xFAC" [⟨some "0xother", some ["a", "b"]⟩]).2.2.2
    (by decide)

/-! ## JS numbers and `parseFloat` (route.ts:180 uses `parseFloat`) -/

/-- A JavaScript number as far as this core distinguishes values: `NaN`,
the signed infinities, and finite values carried exactly as rationals
(every string the route parses is a short decimal numeral, for which
IEEE-754 rounding is not observed by any claim). -/
inductive JsNumber where
  | nan
  | posInf
  | negInf
  | finite (q : ℚ)
deriving DecidableEq

/-- JS `x >= 0`: false for `NaN` and `-Infinity`. -/
def jsNonneg : JsNumber → Bool
  | .nan => false
  | .posInf => true
  | .negInf => false
  | .finite q => decide (0 ≤ q)

/-- JS whitespace skipped by `parseFloat` (ASCII cases). -/
def isJsSpace (c : Char) : Bool :=
  c == ' ' || c == '\t' || c == '\n' || c == '\r'

/-- Numeric value of a run of decimal digit characters. -/
def digitsVal (ds : List Char) : Nat :=
  ds.foldl (fun a c => a * 10 + (c.toNat - 48)) 0

/-- Power `10 ^ n` by structural recursion (kept kernel-reducible). -/
def pow10 : Nat → Nat
  | 0 => 1
  | n + 1 => 10 * pow10 n

/-- Sign and digits of an exponent tail (after the `e`/`E`): an exponent
with no digits is ignored, as `parseFloat` ignores an invalid suffix. -/
def expSign (r : List Char) : Bool × Nat :=
  match r with
  | '-' :: r2 =>
    let d := r2.takeWhile Char.isDigit
    if d.isEmpty then (false, 0) else (true, digitsVal d)
  | '+' :: r2 =>
    let d := r2.takeWhile Char.isDigit
    if d.isEmpty then (false, 0) else (false, digitsVal d)
  | _ =>
    let d := r.takeWhile Char.isDigit
    if d.isEmpty then (false, 0) else (false, digitsVal d)

/-- The optional `e`/`E` exponent part; `(false, 0)` when absent. -/
def expParse (r : List Char) : Bool × Nat :=
  match r with
  | 'e' :: rest => expSign rest
  | 'E' :: rest => expSign rest
  | _ => (false, 0)

/-- JS `parseFloat(s)`: skip leading whitespace, read an optional sign, then
`Infinity` or a decimal numeral `digits [. digits] [e|E [sign] digits]`;
`NaN` when no numeral prefix exists. The value is assembled as one exact
rational `(intPart·10^|frac| + fracPart) · 10^±exp / 10^|frac|`. -/
def jsParseFloat (s : String) : JsNumber :=
  let cs0 := s.data.dropWhile isJsSpace
  let sign : Bool × List Char :=
    match cs0 with
    | '-' :: rest => (true, rest)
    | '+' :: rest => (false, rest)
    | _ => (false, cs0)
  let neg := sign.1
  let cs := sign.2
  if cs.take 8 = "Infinity".data then (if neg then .negInf else .posInf)
  else
    let ip := cs.takeWhile Char.isDigit
    let rest1 := cs.dropWhile Char.isDigit
    let fp :=
      match rest1 with
      | '.' :: r => r.takeWhile Char.isDigit
      | _ => []
    let rest2 :=
      match rest1 with
      | '.' :: r => r.dropWhile Char.isDigit
      | _ => rest1
    if ip.isEmpty && fp.isEmpty then .nan
    else
      let e := expParse rest2
      let base : Nat := digitsVal ip * pow10 fp.length + digitsVal fp
      let q : ℚ :=
        if e.1 then mkRat (Int.ofNat base) (pow10 fp.length * pow10 e.2)
        else mkRat (Int.ofNat (base * pow10 e.2)) (pow10 fp.length)
      .finite (if neg then Rat.neg q else q)

/-! ## Pool Record Manager data model (route.ts:5-36) -/

/-- The `Pool` interface (route.ts:6-22). TS string-literal unions are
carried as strings; optional/nullable fields are `Option`s; ISO timestamp
strings are carried as their millisecond values. -/
structure Pool where
  id : String
  name : String
  description : Option String
  type : String
  status : String
  creator_address : String
  contract_address : String
  token_address : String
  members_count : Nat
  total_saved : ℚ
  progress : ℚ
  frequency : Option String
  next_payout : Option Int
  created_at : Int
  tx_hash : Option String
deriving DecidableEq

/-- The `Member` interface (route.ts:24-30). -/
structure Member where
  id : String
  member_address : String
  contribution_amount : JsNumber
  status : String
  joined_at : Int
deriving DecidableEq

/-- An activity record as built at route.ts:187-196 (the activities file
is untyped `any[]` in the source; this is the shape the route writes). -/
structure Activity where
  id : String
  pool_id : String
  activity_type : String
  user_address : String
  amount : Option JsNumber
  description : String
  created_at : Int
  tx_hash : Option String
deriving DecidableEq

/-- The three persisted collections: `pools.json` (sequence),
`activities.json` (sequence), `members.json` (object keyed by pool id,
modelled as an association list in key-insertion order). -/
structure Store where
  pools : List Pool
  activities : List Activity
  members : List (String × List Member)
deriving DecidableEq

/-- Lookup `poolMembersData[poolId]`: first binding of the key, if any. -/
def lookupMembers (m : List (String × List Member)) (k : String) : Option (List Member) :=
  (m.find? (fun kv => kv.1 == k)).map (fun kv => kv.2)

/-- Assignment `poolMembersData[poolId] = entries`: overwrite the existing binding or
append a new one. -/
def setMembers : List (String × List Member) → String → List Member → List (String × List Member)
  | [], k, v => [(k, v)]
  | kv :: rest, k, v =>
    if kv.1 = k then (k, v) :: rest else kv :: setMembers rest k v

/-- Function `generatePoolId` (route.ts:64-66): `` `pool_${Date.now()}_${rand}` ``
where `rand` is the `Math.random().toString(36).substr(2, 9)` draw; the
`Date.now()` reading and the random draw are the function's external
inputs. -/
def generatePoolId (nowMs : Nat) (rand : String) : String :=
  "pool_" ++ toString nowMs ++ "_" ++ rand

/-- The request body of `POST /api/pools` (route.ts:126-138): every field
may be absent. -/
structure PostBody where
  name : Option String
  description : Option String
  poolType : Option String
  creatorAddress : Option String
  poolAddress : Option String
  tokenAddress : Option String
  members : Option (List String)
  contributionAmount : Option String
  roundDuration : Option Int
  frequency : Option String
  txHash : Option String
deriving DecidableEq

/-- External inputs consumed by one `POST` execution: the `Date.now()`
readings (in source order), the random id suffix, and the
`NEXT_PUBLIC_TOKEN_ADDRESS` environment variable. -/
structure PostEnv where
  tId : Nat
  rand : String
  tPayout : Int
  tCreated : Int
  tJoined : Int
  tActivity : Nat
  tActivityCreated : Int
  envToken : Option String
deriving DecidableEq

/-- The `newPool` record built at route.ts:155-171. -/
def mkNewPool (env : PostEnv) (body : PostBody) : Pool :=
  { id := generatePoolId env.tId env.rand
    name := body.name.getD ""
    description := body.description
    type := jsOrStr body.poolType "rotational"
    status := "active"
    creator_address := jsToLower (body.creatorAddress.getD "")
    contract_address := body.poolAddress.getD ""
    token_address := jsOrStr body.tokenAddress (jsOrStr env.envToken "")
    members_count := (body.members.map List.length).getD 0
    total_saved := 0
    progress := 0
    frequency := some (jsOrStr body.frequency "weekly")
    next_payout := some (env.tPayout + jsOrInt body.roundDuration 604800 * 1000)
    created_at := env.tCreated
    tx_hash := jsOrNullStr body.txHash }

/-- The member entries built at route.ts:177-183: one per supplied
address, ordinal-indexed ids, shared parsed contribution amount. -/
def mkMemberEntries (env : PostEnv) (body : PostBody) (poolId : String)
    (ms : List String) : List Member :=
  ms.enum.map (fun ia =>
    { id := "member_" ++ poolId ++ "_" ++ toString ia.1
      member_address := jsToLower ia.2
      contribution_amount := jsParseFloat (jsOrStr body.contributionAmount "0")
      status := "pending"
      joined_at := env.tJoined })

/-- The `created` activity built at route.ts:187-196. -/
def mkActivity (env : PostEnv) (body : PostBody) (poolId : String) (nMembers : Nat) : Activity :=
  { id := "activity_" ++ toString env.tActivity
    pool_id := poolId
    activity_type := "created"
    user_address := body.creatorAddress.getD ""
    amount := none
    description := "Pool created with " ++ toString nMembers ++ " members"
    created_at := env.tActivityCreated
    tx_hash := body.txHash }

/-- Outcome of `POST`: `400` on failed validation, `201` with the created
record on success (the `500` path only fires on persistence failures,
which the store model cannot raise). -/
inductive PostResult where
  | badRequest
  | created (pool : Pool)
deriving DecidableEq

/-- Handler `POST /api/pools` (route.ts:119-215): validate, build the pool,
append it, and when members were supplied and non-empty also write the
member entries and the `created` activity; returns the response and the
persisted store. -/
def POST (env : PostEnv) (store : Store) (body : PostBody) : PostResult × Store :=
  if jsFalsy body.name || jsFalsy body.creatorAddress || jsFalsy body.poolAddress then
    (.badRequest, store)
  else
    let newPool := mkNewPool env body
    let pools' := store.pools ++ [newPool]
    match body.members with
    | some ms =>
      if ms.length > 0 then
        (.created newPool,
          ⟨pools',
           store.activities ++ [mkActivity env body newPool.id ms.length],
           setMembers store.members newPool.id (mkMemberEntries env body newPool.id ms)⟩)
      else (.created newPool, ⟨pools', store.activities, store.members⟩)
    | none => (.created newPool, ⟨pools', store.activities, store.members⟩)

/-- Outcome of `GET`: `404`, a single pool merged with its activities and
members, or a pool list. -/
inductive GetResult where
  | notFound
  | single (pool : Pool) (pool_activity : List Activity) (pool_members : List Member)
  | list (pools : List Pool)
deriving DecidableEq

/-- Handler `GET /api/pools` (route.ts:68-117): the `id` branch (404 or the pool
merged with its filtered activities and member list), then the `creator`
branch (case-insensitive filter), then all pools. -/
def GET (store : Store) (poolId creator : Option String) : GetResult :=
  if !(jsFalsy poolId) then
    let pid := poolId.getD ""
    match store.pools.find? (fun p => p.id == pid) with
    | none => .notFound
    | some pool =>
      .single pool (store.activities.filter (fun a => a.pool_id == pid))
        ((lookupMembers store.members pid).getD [])
  else if !(jsFalsy creator) then
    .list (store.pools.filter
      (fun p => jsToLower p.creator_address == jsToLower (creator.getD "")))
  else .list store.pools

/-- The pool component of a merged single-pool response. -/
def singlePool : GetResult → Option Pool
  | .single p _ _ => some p
  | _ => none

/-! ## Helper lemmas and concrete fixtures -/

theorem jsToLower_length (s : String) : (jsToLower s).length = s.length := by
  show (s.data.map Char.toLower).length = s.data.length
  exact List.length_map s.data Char.toLower

theorem generatePoolId_length_ne_zero (t : Nat) (r : String) :
    (generatePoolId t r).length ≠ 0 := by
  simp only [generatePoolId, String.length_append]
  intro h
  rw [show "pool_".length = 5 from rfl, show "_".length = 1 from rfl] at h
  omega

theorem lookupMembers_setMembers (l : List (String × List Member)) (k : String)
    (v : List Member) : lookupMembers (setMembers l k v) k = some v := by
  induction l with
  | nil => simp [setMembers, lookupMembers, List.find?]
  | cons kv rest ih =>
    by_cases h : kv.1 = k
    · simp [setMembers, h, lookupMembers, List.find?]
    · simpa [setMembers, h, lookupMembers, List.find?] using ih

theorem find?_append_singleton {α : Type} (p : α → Bool) (xs : List α) (y : α)
    (h : ∀ x ∈ xs, p x = false) : (xs ++ [y]).find? p = [y].find? p := by
  induction xs with
  | nil => rfl
  | cons x rest ih =>
    have hx := h x (List.mem_cons_self x rest)
    simp only [List.cons_append, List.find?, hx]
    exact ih (fun x' hx' => h x' (List.mem_cons_of_mem x hx'))

/-- A fixed run environment for concrete evaluations. -/
def env0 : PostEnv :=
  { tId := 1700000000000
    rand := "4fzyo82mv"
    tPayout := 1700000000000
    tCreated := 1700000000000
    tJoined := 1700000000000
    tActivity := 1700000000000
    tActivityCreated := 1700000000000
    envToken := none }

/-- The empty store (no file has been written yet). -/
def store0 : Store := ⟨[], [], []⟩

/-- A well-formed creation request without members. -/
def bodyBase : PostBody :=
  { name := some "Test"
    description := none
    poolType := none
    creatorAddress := some "0xAbC0000000000000000000000000000000000001"
    poolAddress := some "0xDeF0000000000000000000000000000000000002"
    tokenAddress := none
    members := none
    contributionAmount := none
    roundDuration := none
    frequency := none
    txHash := none }

/-- Body `bodyBase` with one member and no contribution amount. -/
def bodyM : PostBody :=
  { bodyBase with members := some ["0xMem0000000000000000000000000000000000003"] }

/-- Body `bodyBase` with one member and a negative contribution amount. -/
def bodyNeg : PostBody :=
  { bodyM with contributionAmount := some "-1" }

/-- A stored pool used to exercise the lookup paths. -/
def pool5 : Pool :=
  { id := "p1"
    name := "Test"
    description := none
    type := "rotational"
    status := "active"
    creator_address := "0xabc"
    contract_address := "0xdef"
    token_address := ""
    members_count := 0
    total_saved := 0
    progress := 0
    frequency := some "weekly"
    next_payout := some 0
    created_at := 0
    tx_hash := none }

/-- A store holding exactly `pool5`. -/
def store5 : Store := ⟨[pool5], [], []⟩

/-! ## Claims about the Pool Record Manager -/

/-- Claim C2: Whenever `name`, `creatorAddress`, or `poolAddress` is missing
or empty, `POST` answers with the 400 validation failure and leaves all
three persisted collections exactly as they were. -/
theorem C2_validation_no_write (env : PostEnv) (store : Store) (body : PostBody)
    (h : (jsFalsy body.name || jsFalsy body.creatorAddress || jsFalsy body.poolAddress) = true) :
    POST env store body = (.badRequest, store) := by
  simp [POST, h]

/-- Witness for C2: a request missing `poolAddress` is rejected and the
empty store stays empty. -/
theorem C2_validation_no_write_witness :
    POST env0 store0 { bodyBase with poolAddress := none } = (.badRequest, store0) :=
  C2_validation_no_write env0 store0 { bodyBase with poolAddress := none } (by decide)

/-- Claim C5: For a non-empty `id` query parameter: when no stored pool has
that id, `GET` answers 404; when a (unique) pool has it, `GET` answers
with that pool merged with exactly the activities whose `pool_id` equals
the id and with the pool's member list, the empty list when no members
are recorded under the id. -/
theorem C5_get_by_id (store : Store) (pid : String) (cr : Option String)
    (hp : pid.length ≠ 0) :
    ((∀ p ∈ store.pools, p.id ≠ pid) → GET store (some pid) cr = .notFound) ∧
    (∀ p ∈ store.pools, p.id = pid →
      (∀ q ∈ store.pools, q.id = pid → q = p) →
      GET store (some pid) cr =
        .single p (store.activities.filter (fun a => a.pool_id == pid))
          ((lookupMembers store.members pid).getD [])) := by
  have hfal : jsFalsy (some pid) = false := by
    simp only [jsFalsy]
    exact beq_eq_false_iff_ne.mpr hp
  constructor
  · intro h
    have hfind : store.pools.find? (fun p => p.id == pid) = none := by
      rw [List.find?_eq_none]
      intro p hp'
      simpa using h p hp'
    simp [GET, hfal, hfind]
  · intro p hmem hid huniq
    have hsome : (store.pools.find? (fun p => p.id == pid)).isSome := by
      rw [List.find?_isSome]
      exact ⟨p, hmem, by simp [hid]⟩
    obtain ⟨q, hq⟩ := Option.isSome_iff_exists.mp hsome
    have hqid : q.id = pid := by simpa using List.find?_some hq
    have hqp : q = p := huniq q (List.mem_of_find?_eq_some hq) hqid
    subst hqp
    simp [GET, hfal, hq]

/-- Witness for C5: in a store holding exactly `pool5` (id `"p1"`), an
unknown id answers 404 and `"p1"` answers with the merged record. -/
theorem C5_get_by_id_witness :
    GET store5 (some "nope") none = .notFound ∧
    GET store5 (some "p1") none = .single pool5 [] [] := by
  constructor
  · exact (C5_get_by_id store5 "nope" none (by decide)).1 (by decide)
  · have h := (C5_get_by_id store5 "p1" none (by decide)).2 pool5 (by decide) rfl
      (by decide)
    simpa using h

/-- Claim C6, counterexample: The id construction does not guarantee
uniqueness: two calls that observe the same `Date.now()` millisecond and
draw the same `Math.random()` suffix produce the very same id. -/
theorem C6_counterexample :
    generatePoolId 1700000000000 "4fzyo82mv" = generatePoolId 1700000000000 "4fzyo82mv" ∧
    generatePoolId 1700000000000 "4fzyo82mv" = "pool_1700000000000_4fzyo82mv" :=
  ⟨rfl, by decide⟩

/-- Claim C6, amended: Two successive calls sharing a `Date.now()` reading
are assigned distinct ids exactly when their random suffixes differ;
uniqueness of fresh ids is therefore only as good as the random draw, not
guaranteed by the construction. -/
theorem C6_amended_id_uniqueness (t : Nat) (r1 r2 : String) :
    generatePoolId t r1 = generatePoolId t r2 ↔ r1 = r2 := by
  constructor
  · intro h
    have hd := congrArg String.data h
    simp only [generatePoolId, String.data_append] at hd
    exact String.ext (List.append_cancel_left hd)
  · intro h
    rw [h]

/-- Witness for C6: the amended equivalence evaluated at two concrete
suffixes sharing one millisecond. -/
theorem C6_amended_id_uniqueness_witness :
    (generatePoolId 1700000000000 "aaaaaaaaa" = generatePoolId 1700000000000 "bbbbbbbbb")
      ↔ ("aaaaaaaaa" = "bbbbbbbbb") :=
  C6_amended_id_uniqueness 1700000000000 "aaaaaaaaa" "bbbbbbbbb"

/-- Claim C7: A valid creation request with no supplied members (absent or
empty list) yields a pool with `members_count = 0` and writes neither
member entries nor any activity; with a non-empty members list the
`created`-type activity is appended — the activity is written exactly
when `members.length > 0`. -/
theorem C7_members_conditional (env : PostEnv) (store : Store) (body : PostBody)
    (h1 : jsFalsy body.name = false) (h2 : jsFalsy body.creatorAddress = false)
    (h3 : jsFalsy body.poolAddress = false) :
    ((body.members = none ∨ body.members = some ([] : List String)) →
      (POST env store body).1 = .created (mkNewPool env body) ∧
      (mkNewPool env body).members_count = 0 ∧
      (POST env store body).2.activities = store.activities ∧
      (POST env store body).2.members = store.members) ∧
    (∀ ms, body.members = some ms → ms ≠ [] →
      (POST env store body).2.activities =
        store.activities ++ [mkActivity env body (mkNewPool env body).id ms.length] ∧
      (mkActivity env body (mkNewPool env body).id ms.length).activity_type = "created") := by
  constructor
  · rintro (hm | hm) <;> simp [POST, h1, h2, h3, hm, mkNewPool]
  · intro ms hm hne
    have hl : ms.length > 0 := List.length_pos.mpr hne
    refine ⟨?_, rfl⟩
    simp [POST, h1, h2, h3, hm, hl]

/-- Witness for C7: the member-less request writes no activity and no
member entry; the one-member request appends the `created` activity. -/
theorem C7_members_conditional_witness :
    ((POST env0 store0 bodyBase).1 = .created (mkNewPool env0 bodyBase) ∧
      (mkNewPool env0 bodyBase).members_count = 0 ∧
      (POST env0 store0 bodyBase).2.activities = store0.activities ∧
      (POST env0 store0 bodyBase).2.members = store0.members) ∧
    ((POST env0 store0 bodyM).2.activities =
      store0.activities ++
        [mkActivity env0 bodyM (mkNewPool env0 bodyM).id
          ["0xMem0000000000000000000000000000000000003"].length] ∧
      (mkActivity env0 bodyM (mkNewPool env0 bodyM).id
        ["0xMem0000000000000000000000000000000000003"].length).activity_type = "created") := by
  constructor
  · exact (C7_members_conditional env0 store0 bodyBase rfl rfl rfl).1 (Or.inl rfl)
  · exact (C7_members_conditional env0 store0 bodyM rfl rfl rfl).2
      ["0xMem0000000000000000000000000000000000003"] rfl (by decide)

/-- Claim C8: `getPoolsByCreator` is case-insensitive in the query address —
two queries whose addresses agree up to letter case get identical
responses — and a query matching no stored pool answers the empty list
rather than an error. -/
theorem C8_creator_case_insensitive :
    (∀ (store : Store) (c1 c2 : String), jsToLower c1 = jsToLower c2 →
      GET store none (some c1) = GET store none (some c2)) ∧
    (∀ (store : Store) (c : String), c.length ≠ 0 →
      (∀ p ∈ store.pools, jsToLower p.creator_address ≠ jsToLower c) →
      GET store none (some c) = .list []) := by
  constructor
  · intro store c1 c2 h
    have hlen : c1.length = c2.length := by
      rw [← jsToLower_length c1, ← jsToLower_length c2, h]
    by_cases h0 : c1.length = 0
    · have h0' : c2.length = 0 := by omega
      have hb1 : (c1.length == 0) = true := by simp [h0]
      have hb2 : (c2.length == 0) = true := by simp [h0']
      simp [GET, jsFalsy, hb1, hb2]
    · have h0' : c2.length ≠ 0 := by omega
      have hb1 : (c1.length == 0) = false := beq_eq_false_iff_ne.mpr h0
      have hb2 : (c2.length == 0) = false := beq_eq_false_iff_ne.mpr h0'
      simp [GET, jsFalsy, hb1, hb2, h]
  · intro store c hc hnone
    have hb : (c.length == 0) = false := beq_eq_false_iff_ne.mpr hc
    have hfil :
        store.pools.filter (fun p => jsToLower p.creator_address == jsToLower c) = [] := by
      rw [List.filter_eq_nil_iff]
      intro p hp
      simpa using hnone p hp
    simp [GET, jsFalsy, hb, hfil]

/-- Witness for C8: against the store holding `pool5` (creator
`"0xabc"`), the upper- and lower-case queries agree, and an unmatched
query answers `[]`. -/
theorem C8_creator_case_insensitive_witness :
    GET store5 none (some "0xABC") = GET store5 none (some "0xabc") ∧
    GET store5 none (some "0xzzz") = .list [] := by
  constructor
  · exact C8_creator_case_insensitive.1 store5 "0xABC" "0xabc" (by decide)
  · exact C8_creator_case_insensitive.2 store5 "0xzzz" (by decide) (by decide)

/-- Claim C9: Round-trip: a valid creation immediately read back by the
fresh id answers the very record that was written, and the
server-computed fields are present and well-formed: the id is the
timestamp-plus-suffix construction (non-empty), `created_at` is the
creation-time reading, and `next_payout` is creation time plus the round
duration (default 604800 s) in milliseconds. -/
theorem C9_round_trip (env : PostEnv) (store : Store) (body : PostBody)
    (h1 : jsFalsy body.name = false) (h2 : jsFalsy body.creatorAddress = false)
    (h3 : jsFalsy body.poolAddress = false)
    (hfresh : ∀ q ∈ store.pools, q.id ≠ generatePoolId env.tId env.rand) :
    (POST env store body).1 = .created (mkNewPool env body) ∧
    singlePool (GET (POST env store body).2 (some (mkNewPool env body).id) none) =
      some (mkNewPool env body) ∧
    (mkNewPool env body).id = generatePoolId env.tId env.rand ∧
    (mkNewPool env body).id.length ≠ 0 ∧
    (mkNewPool env body).next_payout =
      some (env.tPayout + jsOrInt body.roundDuration 604800 * 1000) ∧
    (mkNewPool env body).created_at = env.tCreated := by
  have hid : (mkNewPool env body).id = generatePoolId env.tId env.rand := rfl
  have hlen : (mkNewPool env body).id.length ≠ 0 := by
    rw [hid]
    exact generatePoolId_length_ne_zero env.tId env.rand
  have hkey : (POST env store body).1 = .created (mkNewPool env body) ∧
      (POST env store body).2.pools = store.pools ++ [mkNewPool env body] := by
    cases hm : body.members with
    | none => simp [POST, h1, h2, h3, hm]
    | some ms =>
      by_cases hl : ms.length > 0
      · simp [POST, h1, h2, h3, hm, hl]
      · simp [POST, h1, h2, h3, hm, hl]
  have hfal : jsFalsy (some (mkNewPool env body).id) = false := by
    simp only [jsFalsy]
    exact beq_eq_false_iff_ne.mpr hlen
  have hfind : ((POST env store body).2.pools).find?
      (fun p => p.id == (mkNewPool env body).id) = some (mkNewPool env body) := by
    rw [hkey.2, find?_append_singleton]
    · simp [List.find?]
    · intro q hq
      rw [beq_eq_false_iff_ne, hid]
      exact hfresh q hq
  refine ⟨hkey.1, ?_, hid, hlen, rfl, rfl⟩
  simp [GET, hfal, hfind, singlePool]

/-- Witness for C9: the round trip evaluated on the empty store with the
member-less valid request. -/
theorem C9_round_trip_witness :
    (POST env0 store0 bodyBase).1 = .created (mkNewPool env0 bodyBase) ∧
    singlePool (GET (POST env0 store0 bodyBase).2 (some (mkNewPool env0 bodyBase).id) none) =
      some (mkNewPool env0 bodyBase) ∧
    (mkNewPool env0 bodyBase).id = generatePoolId env0.tId env0.rand ∧
    (mkNewPool env0 bodyBase).id.length ≠ 0 ∧
    (mkNewPool env0 bodyBase).next_payout =
      some (env0.tPayout + jsOrInt bodyBase.roundDuration 604800 * 1000) ∧
    (mkNewPool env0 bodyBase).created_at = env0.tCreated :=
  C9_round_trip env0 store0 bodyBase rfl rfl rfl (by decide)

/-- Claim C10, counterexample: The claim fails as stated: a successful
creation whose caller supplies `contributionAmount = "-1"` writes a
member record whose `contribution_amount` is the negative number `-1`,
so the amount is not non-negative regardless of the supplied string. -/
theorem C10_counterexample :
    jsFalsy bodyNeg.name = false ∧
    jsFalsy bodyNeg.creatorAddress = false ∧
    jsFalsy bodyNeg.poolAddress = false ∧
    (((lookupMembers (POST env0 store0 bodyNeg).2.members
        (generatePoolId env0.tId env0.rand)).getD []).map
      (fun m => m.contribution_amount)) = [JsNumber.finite (-1)] ∧
    jsNonneg (JsNumber.finite (-1)) = false := by
  decide

/-- Claim C10, amended: Every member record written by a successful creation
carries `parseFloat` of the supplied decimal string (`"0"` when absent)
as its contribution amount; the amount is non-negative provided that
parse result is non-negative (as it is for an absent string or an
unsigned decimal numeral) — not for arbitrary caller-supplied strings. -/
theorem C10_amended (env : PostEnv) (store : Store) (body : PostBody) (ms : List String)
    (h1 : jsFalsy body.name = false) (h2 : jsFalsy body.creatorAddress = false)
    (h3 : jsFalsy body.poolAddress = false)
    (hm : body.members = some ms) (hne : ms ≠ [])
    (hnn : jsNonneg (jsParseFloat (jsOrStr body.contributionAmount "0")) = true) :
    lookupMembers (POST env store body).2.members (generatePoolId env.tId env.rand) =
      some (mkMemberEntries env body (generatePoolId env.tId env.rand) ms) ∧
    (mkMemberEntries env body (generatePoolId env.tId env.rand) ms).all
      (fun m => jsNonneg m.contribution_amount) = true := by
  have hl : ms.length > 0 := List.length_pos.mpr hne
  constructor
  · have hmem : (POST env store body).2.members =
        setMembers store.members (generatePoolId env.tId env.rand)
          (mkMemberEntries env body (generatePoolId env.tId env.rand) ms) := by
      simp [POST, h1, h2, h3, hm, hl, mkNewPool]
    rw [hmem, lookupMembers_setMembers]
  · rw [List.all_eq_true]
    intro m hm'
    simp only [mkMemberEntries, List.mem_map] at hm'
    obtain ⟨ia, _, rfl⟩ := hm'
    simpa using hnn

/-- Witness for C10: the one-member request with no supplied
`contributionAmount` parses to `0` and every written member amount is
non-negative. -/
theorem C10_amended_witness :
    lookupMembers (POST env0 store0 bodyM).2.members (generatePoolId env0.tId env0.rand) =
      some (mkMemberEntries env0 bodyM (generatePoolId env0.tId env0.rand)
        ["0xMem0000000000000000000000000000000000003"]) ∧
    (mkMemberEntries env0 bodyM (generatePoolId env0.tId env0.rand)
      ["0xMem0000000000000000000000000000000000003"]).all
      (fun m => jsNonneg m.contribution_amount) = true :=
  C10_amended env0 store0 bodyM ["0xMem0000000000000000000000000000000000003"]
    rfl rfl rfl rfl (by decide) (by decide)

end Hajo
